import Mathlib

/-!
Verification of the securepdf print-job pipeline and vector layout engine.

Shallow embedding of:
- the JobRecord status machine and its conditional persistence updates
  (vectorPdfWorker: processPage / processBatch / processMerge and the
  worker failed handler);
- the Redis render-lock release Lua script (RELEASE_RENDER_LOCK_LUA);
- the JS numeric coercion pipeline for layout.repeatPerPage;
- VectorLayoutEngine.buildSlotLayoutPlan and the exact-unit (mm) branch of
  drawSourceFragment;
- the series numbering arithmetic of drawSeriesNumbers;
- stableStringify / signJobPayload / verifyJobPayload (services/hmac.js)
  with the HMAC digest kept as an explicit function parameter;
- mapErrorCode and the control flow of processMerge.

Machine numbers are modelled as rationals, JS strings as Lean strings and
fallible code as Except values.
-/

namespace SecurePdf

/-- Job lifecycle statuses of the VectorPrintJob schema. -/
inductive Status where
  | CREATED
  | BATCH_RUNNING
  | MERGE_RUNNING
  | READY
  | FAILED
deriving DecidableEq, Repr

/-- An atomic conditional status update (`findOneAndUpdate`/`updateOne` filtered
by `\x7b _id, status: expected \x7d`): it writes `tgt` exactly when the current
persisted status equals `expected`, and does nothing (returns `none`)
otherwise. -/
def condUpdate (expected tgt cur : Status) : Option Status :=
  if cur = expected then some tgt else none

/-- The CREATED -> BATCH_RUNNING update of processPage / processBatch
(`findOneAndUpdate \x7b _id: printJobId, status: CREATED \x7d`). -/
def batchStartUpdate (cur : Status) : Option Status :=
  condUpdate Status.CREATED Status.BATCH_RUNNING cur

/-- The fromStatus -> MERGE_RUNNING update of processMerge
(`findOneAndUpdate \x7b _id: rootPrintJobId, status: fromStatus \x7d` where
fromStatus is CREATED or BATCH_RUNNING). -/
def mergeStartUpdate (fromStatus cur : Status) : Option Status :=
  condUpdate fromStatus Status.MERGE_RUNNING cur

/-- The MERGE_RUNNING -> READY update of processMerge
(`updateOne \x7b _id: rootPrintJobId, status: MERGE_RUNNING \x7d`). -/
def mergeReadyUpdate (cur : Status) : Option Status :=
  condUpdate Status.MERGE_RUNNING Status.READY cur

/-- The status write performed by the worker failed handler
(startVectorPdfWorkers, `worker.on('failed', ...)`).  The handler re-fetches
the job (`snapshot`), returns early when the error is the discard sentinel or
when the snapshot shows READY, and otherwise sets `jobDoc.status = 'FAILED'`
and calls `jobDoc.save()`.  The save is a plain write by `_id`: it hits the
record whatever its status is at write time (`cur`), so the function takes the
read snapshot and the status at write time as separate arguments. -/
def failedHandlerWrite (snapshot cur : Status) (errMsg : String) : Status :=
  if errMsg = "Invalid lifecycle transition" then cur
  else if snapshot = Status.READY then cur
  else Status.FAILED

/-- State of the coordination store restricted to one (documentKey, jobId)
pair: the render-lock key value, the shared active counter (none when the key
is absent), and whether the membership marker for the job exists. -/
structure RedisState where
  lock : Option String
  active : Option Int
  member : Bool
deriving DecidableEq, Repr

/-- RELEASE_RENDER_LOCK_LUA, executed atomically by Redis. Step 1: delete the
lock key when its value equals the jobId.  Step 2: when the membership marker
exists, delete it and decrement the counter only when
`tonumber(GET counter or '0')` is strictly positive. -/
def releaseRenderLock (st : RedisState) (jobId : String) : RedisState :=
  let st1 := if st.lock = some jobId then { st with lock := none } else st
  if st1.member then
    let active := st1.active.getD 0
    if 0 < active then { st1 with member := false, active := some (active - 1) }
    else { st1 with member := false }
  else st1

/-- Observed value of the shared active counter (`tonumber(... or '0')`). -/
def activeVal (st : RedisState) : Int :=
  st.active.getD 0

/-- A JS value in the positions the layout engine coerces to numbers:
undefined, null, a (finite) number, NaN, or a string. -/
inductive JsVal where
  | undef
  | null
  | num (q : ℚ)
  | nan
  | str (s : String)
deriving DecidableEq, Repr

/-- JS truthiness for the modelled values. -/
def jsTruthy : JsVal → Bool
  | JsVal.undef => false
  | JsVal.null => false
  | JsVal.num q => q ≠ 0
  | JsVal.nan => false
  | JsVal.str s => s ≠ ""

/-- The JS `a || b` operator. -/
def jsOr (a b : JsVal) : JsVal :=
  if jsTruthy a then a else b

/-- Decimal value of a digit list (most significant first). -/
def digitsVal (l : List Char) : ℕ :=
  l.foldl (fun acc c => 10 * acc + (c.toNat - 48)) 0

/-- JS whitespace (the common subset: space, tab, newline, carriage
return). -/
def jsWhitespaceChar (c : Char) : Bool :=
  c = ' ' || c = '\t' || c = '\n' || c = '\r'

/-- Trim leading and trailing whitespace from a char list. -/
def trimChars (l : List Char) : List Char :=
  ((l.dropWhile jsWhitespaceChar).reverse.dropWhile jsWhitespaceChar).reverse

/-- ECMAScript ToNumber on a trimmed string, restricted to plain decimal
literals (optional sign, digits, optional fraction); other strings map to NaN
(`none`).  The repository only feeds untyped configuration fields through
`Number(...)`, for which this decimal subset is the relevant behaviour. -/
def jsStrToNumber (s : String) : Option ℚ :=
  let t := trimChars s.data
  if t = [] then some 0
  else
    let signed : ℚ × List Char :=
      match t with
      | '-' :: r => (-1, r)
      | '+' :: r => (1, r)
      | _ => (1, t)
    let sign := signed.1
    let t1 := signed.2
    let intPart := t1.takeWhile Char.isDigit
    let rest := t1.dropWhile Char.isDigit
    match rest with
    | [] => if intPart = [] then none else some (sign * digitsVal intPart)
    | '.' :: fr =>
      let frac := fr.takeWhile Char.isDigit
      let rest2 := fr.dropWhile Char.isDigit
      if rest2 ≠ [] then none
      else if intPart = [] ∧ frac = [] then none
      else some (sign * ((digitsVal intPart : ℚ) + digitsVal frac / 10 ^ frac.length))
    | _ => none

/-- The JS `Number(v)` coercion; `none` denotes NaN. -/
def jsToNumber : JsVal → Option ℚ
  | JsVal.undef => none
  | JsVal.null => some 0
  | JsVal.num q => some q
  | JsVal.nan => none
  | JsVal.str s => jsStrToNumber s

/-- `Math.min`, which propagates NaN. -/
def jsMin (a b : Option ℚ) : Option ℚ :=
  match a, b with
  | some x, some y => some (min x y)
  | _, _ => none

/-- `Math.max`, which propagates NaN. -/
def jsMax (a b : Option ℚ) : Option ℚ :=
  match a, b with
  | some x, some y => some (max x y)
  | _, _ => none

/-- Back from the computed number to a JS value (NaN stays NaN). -/
def numToJsVal : Option ℚ → JsVal
  | none => JsVal.nan
  | some q => JsVal.num q

/-- The repeat-per-page clamp of createSinglePage and createPage:
`Math.max(1, Math.min(16, Number(layout?.repeatPerPage || 4)))`. -/
def pageRepeatPerPage (rpp : JsVal) : Option ℚ :=
  jsMax (some 1) (jsMin (some 16) (jsToNumber (jsOr rpp (JsVal.num 4))))

/-- The slots-per-page clamp of drawSourceFragment:
`Math.max(1, Math.min(16, Number(repeatPerPage || 1)))`, applied to the value
the page builders pass down. -/
def fragmentSlotsPerPage (rpp : Option ℚ) : Option ℚ :=
  jsMax (some 1) (jsMin (some 16) (jsToNumber (jsOr (numToJsVal rpp) (JsVal.num 1))))

/-- Slots-per-page value reaching the placement loops for one render call:
the page-level clamp composed with the fragment-level clamp. -/
def slotsPerPageOfLayout (rpp : JsVal) : Option ℚ :=
  fragmentSlotsPerPage (pageRepeatPerPage rpp)

/-- Iteration count of the mm-mode placement loop
`for (let i = 0; i < slotsPerPage; i += 1)`. -/
def mmLoopCount (q : ℚ) : ℕ :=
  (Int.ceil q).toNat

/-- Modelled from the spec: `vector/constants.js` is not under src.  A4 page
width in PostScript points, matching the canonical viewBox
`0 0 595.28 841.89` that normalizeSvgToA4 asserts after rewriting. -/
def A4_WIDTH_PT : ℚ := 59528 / 100

/-- Modelled from the spec: `vector/constants.js` is not under src.  A4 page
height in PostScript points (841.89), matching the canonical viewBox asserted
by normalizeSvgToA4. -/
def A4_HEIGHT_PT : ℚ := 84189 / 100

/-- `const A4_HEIGHT_MM = (A4_HEIGHT * 25.4) / 72` from drawSourceFragment. -/
def A4_HEIGHT_MM : ℚ := (A4_HEIGHT_PT * (254 / 10)) / 72

/-- One entry of the slot layout plan returned by buildSlotLayoutPlan. -/
structure LayoutSlot where
  index : ℕ
  x : ℚ
  y : ℚ
  width : ℚ
  height : ℚ
deriving DecidableEq, Repr

/-- The gap actually used: `Number.isFinite(rawGap) ? Math.max(0, rawGap) : 0`
with `none` standing for a non-finite `Number(slotSpacingPt)`. -/
def gapOf (slotSpacingPt : Option ℚ) : ℚ :=
  match slotSpacingPt with
  | none => 0
  | some g => max 0 g

/-- Height of the usable printable area, `A4_HEIGHT - 2 * SAFE_MARGIN`.
SAFE_MARGIN comes from the missing constants module, so it stays a
parameter. -/
def usableHeight (safeMargin : ℚ) : ℚ :=
  A4_HEIGHT_PT - 2 * safeMargin

/-- The gap after the overflow guard of buildSlotLayoutPlan: the requested gap
when `usableHeight - gap * (slots - 1)` is still positive, else 0. -/
def effectiveGapOf (safeMargin : ℚ) (slotsPerPage : ℕ) (slotSpacingPt : Option ℚ) : ℚ :=
  let gap := gapOf slotSpacingPt
  if 0 < usableHeight safeMargin - gap * (slotsPerPage - 1 : ℕ) then gap else 0

/-- `slotHeight = (usableHeight - effectiveGap * (slots - 1)) / slotsPerPage`. -/
def slotHeightOf (safeMargin : ℚ) (slotsPerPage : ℕ) (slotSpacingPt : Option ℚ) : ℚ :=
  (usableHeight safeMargin -
      effectiveGapOf safeMargin slotsPerPage slotSpacingPt * (slotsPerPage - 1 : ℕ)) /
    slotsPerPage

/-- VectorLayoutEngine.buildSlotLayoutPlan.  `slotsPerPage` is
`Math.max(1, Number(repeatPerPage || 1))`; the caller (drawSourceFragment)
passes the already-clamped integral repeat count. -/
def buildSlotLayoutPlan (safeMargin : ℚ) (repeatPerPage : ℕ)
    (slotSpacingPt : Option ℚ) : List LayoutSlot :=
  let slotsPerPage := max 1 repeatPerPage
  let effectiveGap := effectiveGapOf safeMargin slotsPerPage slotSpacingPt
  let slotHeight := slotHeightOf safeMargin slotsPerPage slotSpacingPt
  (List.range slotsPerPage).map fun index =>
    { index := index
      x := safeMargin
      y := safeMargin + index * (slotHeight + effectiveGap)
      width := A4_WIDTH_PT - 2 * safeMargin
      height := slotHeight }

/-- The exact-unit (mm) crop fields consumed by drawSourceFragment;
`none` models an absent (null/undefined) field. -/
structure MmCrop where
  widthMm : ℚ
  heightMm : ℚ
  xMm : Option ℚ
  yMm : Option ℚ
  cutMarginMm : Option ℚ
deriving DecidableEq, Repr

/-- One placement produced by the mm-mode loop of drawSourceFragment
(the geometry fields that depend on the slot index). -/
structure MmPlacement where
  index : ℕ
  xMm : ℚ
  yMm : ℚ
  widthMm : ℚ
  heightMm : ℚ
deriving DecidableEq, Repr

/-- True when an optional mm field is present and negative (the
`MM_LAYOUT_INVALID` guards fire on present negative values only). -/
def mmFieldNeg (o : Option ℚ) : Bool :=
  match o with
  | some v => v < 0
  | none => false

/-- The exact-unit (mm) branch of drawSourceFragment: the `MM_LAYOUT_INVALID`
guards, the `Objects do not fit on page` fit check computed before any object
is drawn, and then one placement per slot stepping down by
`objectHeightMm + cutGapMm`.  `slotsPerPage` is the clamped repeat count
(at least 1 in every caller). -/
def drawSourceFragmentMm (crop : MmCrop) (slotsPerPage : ℕ) :
    Except String (List MmPlacement) :=
  if mmFieldNeg crop.xMm then Except.error "MM_LAYOUT_INVALID: xMm must be >= 0"
  else if mmFieldNeg crop.yMm then Except.error "MM_LAYOUT_INVALID: yMm must be >= 0"
  else if mmFieldNeg crop.cutMarginMm then
    Except.error "MM_LAYOUT_INVALID: cutMarginMm must be >= 0"
  else
    let startXmm := crop.xMm.getD 0
    let startYmm := crop.yMm.getD 0
    let cutGapMm := crop.cutMarginMm.getD 0
    let verticalStepMm := crop.heightMm + cutGapMm
    let lastObjectBottomMm :=
      startYmm + ((slotsPerPage : ℚ) - 1) * verticalStepMm + crop.heightMm
    if A4_HEIGHT_MM < lastObjectBottomMm then
      Except.error "Objects do not fit on page"
    else
      Except.ok ((List.range slotsPerPage).map fun i =>
        { index := i
          xMm := startXmm
          yMm := startYmm + i * verticalStepMm
          widthMm := crop.widthMm
          heightMm := crop.heightMm })

/-- JS `String.prototype.padStart(n, c)` on a char list. -/
def padStartList (l : List Char) (n : ℕ) (c : Char) : List Char :=
  if n ≤ l.length then l else List.replicate (n - l.length) c ++ l

/-- The pad-then-truncate step of drawSeriesNumbers for `padLength > 0`:
`padded = rawDigits.padStart(padLength, '0')` followed by
`padded.slice(padded.length - padLength)` when `padded.length > padLength`. -/
def seriesPadTruncate (rawDigits : List Char) (padLength : ℕ) : List Char :=
  let padded := padStartList rawDigits padLength '0'
  if padLength < padded.length then padded.drop (padded.length - padLength) else padded

/-- The series value drawn for slot `slotIdx` of page `pageIdx`
(drawSeriesNumbers): `seriesNumber = start + (pageIdx * repeatPerPage +
slotIdx) * step`, stringified, padded / truncated to `padLength` when
`padLength > 0`, and prefixed. -/
def seriesValue (start step : ℤ) (padLength : ℕ) (pfx : String)
    (pageIdx slotIdx repeatPerPage : ℕ) : String :=
  let globalIdx : ℤ := (pageIdx * repeatPerPage + slotIdx : ℕ)
  let seriesNumber := start + globalIdx * step
  let rawDigits := (toString seriesNumber).data
  if 0 < padLength then
    String.mk (pfx.data ++ seriesPadTruncate rawDigits padLength)
  else
    String.mk (pfx.data ++ rawDigits)

/-- The claim's reading of the same computation: the decimal digits of
`start + (p * slotsPerPage + i) * step`; when `padLength > 0`, the last
`padLength` characters of `padLength` zeros prepended to those digits (i.e.
zero-padding to `padLength`, or the last `padLength` characters when the
digits are longer); all behind the literal prefix. -/
def seriesValueSpec (start step : ℤ) (padLength : ℕ) (pfx : String)
    (p i slotsPerPage : ℕ) : String :=
  let value := start + (p * slotsPerPage + i : ℕ) * step
  let digits := (toString value).data
  if 0 < padLength then
    let widened := List.replicate padLength '0' ++ digits
    String.mk (pfx.data ++ widened.drop (widened.length - padLength))
  else
    String.mk (pfx.data ++ digits)

/-- Lowercase hex digit, as produced by JSON.stringify \u escapes. -/
def hexDigitChar (n : ℕ) : Char :=
  if n < 10 then Char.ofNat (48 + n) else Char.ofNat (87 + n)

/-- Numeric value of a lowercase hex digit. -/
def hexVal (c : Char) : ℕ :=
  if c.toNat < 58 then c.toNat - 48 else c.toNat - 87

/-- JSON.stringify escaping of one character: quote and backslash get
two-character escapes, the five named control characters get their short
escapes, the remaining control characters become `\u00xx`, and every other
character stands for itself. -/
def jsonEscapeChar (c : Char) : List Char :=
  if c = '"' then ['\\', '"']
  else if c = '\\' then ['\\', '\\']
  else if c.toNat < 32 then
    if c = Char.ofNat 8 then ['\\', 'b']
    else if c = Char.ofNat 9 then ['\\', 't']
    else if c = Char.ofNat 10 then ['\\', 'n']
    else if c = Char.ofNat 12 then ['\\', 'f']
    else if c = Char.ofNat 13 then ['\\', 'r']
    else ['\\', 'u', '0', '0', hexDigitChar (c.toNat / 16), hexDigitChar (c.toNat % 16)]
  else [c]

/-- JSON.stringify escaping of a whole string body (without the outer
quotes). -/
def jsonEscapeList (l : List Char) : List Char :=
  l.flatMap jsonEscapeChar

/-- Decoder for one escaped character; inverse to jsonEscapeChar, used only in
proofs of injectivity of the canonical serialization. -/
def jsonUnescape1 (l : List Char) : Option (Char × List Char) :=
  match l with
  | [] => none
  | c :: r =>
    if c = '\\' then
      match r with
      | [] => none
      | k :: r2 =>
        if k = '"' then some ('"', r2)
        else if k = '\\' then some ('\\', r2)
        else if k = 'b' then some (Char.ofNat 8, r2)
        else if k = 't' then some (Char.ofNat 9, r2)
        else if k = 'n' then some (Char.ofNat 10, r2)
        else if k = 'f' then some (Char.ofNat 12, r2)
        else if k = 'r' then some (Char.ofNat 13, r2)
        else if k = 'u' then
          match r2 with
          | z1 :: z2 :: h1 :: h2 :: r3 =>
            if z1 = '0' ∧ z2 = '0' then
              some (Char.ofNat (16 * hexVal h1 + hexVal h2), r3)
            else none
          | _ => none
        else none
    else some (c, r)

/-- The HMAC payload actually signed in this repository: the canonical triple
plus truth flags recording whether the payload carries one of the forbidden
mutable fields (`pages`, `seriesConfig`, `placementRules`) that
signJobPayload rejects. -/
structure SignInput where
  jobId : String
  outputKey : String
  createdAt : String
  hasPages : Bool
  hasSeriesConfig : Bool
  hasPlacementRules : Bool
deriving DecidableEq, Repr

/-- A payload free of the forbidden mutable fields. -/
def wellFormedPayload (p : SignInput) : Prop :=
  p.hasPages = false ∧ p.hasSeriesConfig = false ∧ p.hasPlacementRules = false

instance (p : SignInput) : Decidable (wellFormedPayload p) := by
  unfold wellFormedPayload
  infer_instance

/-- stableStringify specialized to the canonical payload: keys sorted
lexicographically (`createdAt` < `jobId` < `outputKey`), no undefined values,
each string value serialized as JSON.stringify does. -/
def stableChars (p : SignInput) : List Char :=
  ("\x7b\"createdAt\":\"").data ++
    (jsonEscapeList p.createdAt.data ++ ('"' ::
      ((",\"jobId\":\"").data ++
        (jsonEscapeList p.jobId.data ++ ('"' ::
          ((",\"outputKey\":\"").data ++
            (jsonEscapeList p.outputKey.data ++ ['"', '\x7d'])))))))

/-- String form of the canonical serialization. -/
def stableStringifyPayload (p : SignInput) : String :=
  String.mk (stableChars p)

/-- Number of bytes of the UTF-8 encoding of one character
(Buffer.byteLength semantics). -/
def charUtf8Bytes (c : Char) : ℕ :=
  if c.toNat < 128 then 1
  else if c.toNat < 2048 then 2
  else if c.toNat < 65536 then 3
  else 4

/-- `Buffer.from(s).length`: UTF-8 byte length of a string. -/
def utf8Len (s : String) : ℕ :=
  s.data.foldl (fun n c => n + charUtf8Bytes c) 0

/-- The signing environment: whether JOB_PAYLOAD_HMAC_SECRET is configured,
and the keyed digest itself.  Modelled from the spec: the digest is node's
HMAC-SHA256 hex digest (external library code), kept as an explicit function
parameter; theorems that need collision resistance assume the function is
injective. -/
structure HmacEnv where
  secretConfigured : Bool
  digest : String → String

/-- signJobPayload: reject payloads carrying a (truthy) forbidden mutable
field, reject a missing secret, and otherwise digest the canonical
serialization. -/
def signJobPayload (env : HmacEnv) (p : SignInput) : Except String String :=
  if p.hasPages || p.hasSeriesConfig || p.hasPlacementRules then
    Except.error "HMAC payload must be immutable only"
  else if env.secretConfigured = false then
    Except.error "JOB_PAYLOAD_HMAC_SECRET not configured"
  else
    Except.ok (env.digest (stableStringifyPayload p))

/-- verifyJobPayload: a non-string or empty stored signature is `false`
straight away; otherwise the signature is recomputed (any exception from
signJobPayload propagates), a byte-length mismatch is `false`, and equal
lengths are compared with `crypto.timingSafeEqual` (equality of the two hex
strings). -/
def verifyJobPayload (env : HmacEnv) (p : SignInput) (expectedHmac : Option String) :
    Except String Bool :=
  match expectedHmac with
  | none => Except.ok false
  | some e =>
    if e = "" then Except.ok false
    else
      match signJobPayload env p with
      | Except.error msg => Except.error msg
      | Except.ok actual =>
        if utf8Len actual ≠ utf8Len e then Except.ok false
        else Except.ok (decide (actual = e))

/-- ASCII lowercasing, standing in for the `i` regex flag. -/
def toLowerAscii (c : Char) : Char :=
  if 65 ≤ c.toNat ∧ c.toNat ≤ 90 then Char.ofNat (c.toNat + 32) else c

/-- Substring test on char lists. -/
def listInfixOf (pat : List Char) : List Char → Bool
  | [] => pat.isEmpty
  | c :: t => pat.isPrefixOf (c :: t) || listInfixOf pat t

/-- Case-insensitive substring test, modelling `/pat/i.test(msg)` for the
letter-only patterns mapErrorCode uses. -/
def containsCI (msg pat : String) : Bool :=
  listInfixOf (pat.data.map toLowerAscii) (msg.data.map toLowerAscii)

/-- mapErrorCode from vectorPdfWorker: ordered free-text classification of a
failure message into the stable error-code taxonomy. -/
def mapErrorCode (msg fallback : String) : String :=
  if msg = "SVG_NORMALIZE_TIMEOUT" then "TIMEOUT"
  else if containsCI msg "hmac" then "HMAC_FAILED"
  else if containsCI msg "inkscape" then "INKSCAPE_FAIL"
  else if containsCI msg "merge" then "MERGE_FAIL"
  else if containsCI msg "vector metadata" then "INVALID_INPUT"
  else if containsCI msg "SVG too complex" || msg = "SVG_TOO_COMPLEX" then "SVG_TOO_COMPLEX"
  else if containsCI msg "SECURITY VIOLATION" then "INVALID_OUTPUT"
  else if containsCI msg "timeout" then "TIMEOUT"
  else fallback

/-- The five magic bytes `%PDF-`. -/
def pdfMagic : List (Fin 256) := [37, 80, 68, 70, 45]

/-- The output integrity gate:
`Buffer.from(bytes.slice(0, 5)).toString().startsWith('%PDF-')`.  The five
magic characters are ASCII, so the decoded prefix starts with `%PDF-` exactly
when the first five bytes are the magic bytes. -/
def isPdfHeader (bytes : List (Fin 256)) : Bool :=
  bytes.take 5 = pdfMagic

/-- The thrown message of the output integrity gate. -/
def securityViolationMsg : String :=
  "SECURITY VIOLATION: Output is not a valid PDF. Vector pipeline broken."

/-- The thrown message of the root-id consistency check in processMerge. -/
def rootMismatchMsg (root payloadJobId : String) : String :=
  "Root printJobId mismatch: rootPrintJobId=" ++ root ++ " payload.jobId=" ++ payloadJobId

/-- The fields of the persisted job document that processMerge reads.
`outputKey` is the resolved output key (metadata.outputKey, then
hmacPayload.outputKey, then the outputKey virtual); `createdAtIso` is the ISO
form of createdAt when the Date is present. -/
structure MergeJobDoc where
  id : String
  status : Status
  payloadHmac : Option String
  outputKey : Option String
  createdAtIso : Option String
deriving DecidableEq, Repr

/-- getStableHmacPayload: the canonical `\x7bjobId, outputKey, createdAt\x7d`
triple, failing when the output key or createdAt is missing. -/
def getStableHmacPayloadModel (jd : MergeJobDoc) : Except String SignInput :=
  match jd.outputKey with
  | none => Except.error "outputKey missing on job"
  | some key =>
    match jd.createdAtIso with
    | none => Except.error "createdAt missing on job"
    | some iso =>
      Except.ok
        { jobId := jd.id
          outputKey := key
          createdAt := iso
          hasPages := false
          hasSeriesConfig := false
          hasPlacementRules := false }

/-- Outcome of one processMerge run: the thrown error (if any), whether the
MERGE_RUNNING transition was performed, whether the final artifact was
uploaded, and the job status after the run (none when no job was found). -/
structure MergeOutcome where
  result : Except String Unit
  transitionedToMerge : Bool
  uploadedFinal : Bool
  statusAfter : Option Status
deriving Repr

/-- processMerge, straight-line: resolve the root job id, load the job,
discard on a status outside \x7bCREATED, BATCH_RUNNING\x7d, require a (truthy)
payloadHmac, build the canonical payload, fail closed when the root id differs
from the signed jobId, verify the signature, take the conditional
fromStatus -> MERGE_RUNNING transition, render, run the `%PDF-` gate before
uploading, upload, and finish with the conditional MERGE_RUNNING -> READY
update.  Single-run model: the conditional updates see the status this run
last wrote. -/
def processMergeModel (env : HmacEnv) (root : Option String) (jdOpt : Option MergeJobDoc)
    (renderedBytes : List (Fin 256)) : MergeOutcome :=
  match root with
  | none =>
    { result := Except.error "Missing root printJobId"
      transitionedToMerge := false, uploadedFinal := false, statusAfter := none }
  | some rootId =>
    match jdOpt with
    | none =>
      { result := Except.error "PrintJob not found"
        transitionedToMerge := false, uploadedFinal := false, statusAfter := none }
    | some jd =>
      if jd.status ≠ Status.BATCH_RUNNING ∧ jd.status ≠ Status.CREATED then
        { result := Except.error "Invalid lifecycle transition"
          transitionedToMerge := false, uploadedFinal := false, statusAfter := some jd.status }
      else if jd.status = Status.FAILED then
        -- `return \x7b skipped: true \x7d`; unreachable after the check above.
        { result := Except.ok ()
          transitionedToMerge := false, uploadedFinal := false, statusAfter := some jd.status }
      else
        match jd.payloadHmac with
        | none =>
          { result := Except.error "payloadHmac missing on job"
            transitionedToMerge := false, uploadedFinal := false, statusAfter := some jd.status }
        | some storedHmac =>
          if storedHmac = "" then
            { result := Except.error "payloadHmac missing on job"
              transitionedToMerge := false, uploadedFinal := false
              statusAfter := some jd.status }
          else
            match getStableHmacPayloadModel jd with
            | Except.error msg =>
              { result := Except.error msg
                transitionedToMerge := false, uploadedFinal := false
                statusAfter := some jd.status }
            | Except.ok payload =>
              if rootId ≠ payload.jobId then
                { result := Except.error (rootMismatchMsg rootId payload.jobId)
                  transitionedToMerge := false, uploadedFinal := false
                  statusAfter := some jd.status }
              else
                match verifyJobPayload env payload (some storedHmac) with
                | Except.error msg =>
                  { result := Except.error msg
                    transitionedToMerge := false, uploadedFinal := false
                    statusAfter := some jd.status }
                | Except.ok false =>
                  { result := Except.error "HMAC verification failed"
                    transitionedToMerge := false, uploadedFinal := false
                    statusAfter := some jd.status }
                | Except.ok true =>
                  match mergeStartUpdate jd.status jd.status with
                  | none =>
                    { result := Except.error "Invalid lifecycle transition"
                      transitionedToMerge := false, uploadedFinal := false
                      statusAfter := some jd.status }
                  | some st1 =>
                    if isPdfHeader renderedBytes = false then
                      { result := Except.error securityViolationMsg
                        transitionedToMerge := true, uploadedFinal := false
                        statusAfter := some st1 }
                    else
                      match mergeReadyUpdate st1 with
                      | none =>
                        { result := Except.error "Invalid lifecycle transition"
                          transitionedToMerge := true, uploadedFinal := true
                          statusAfter := some st1 }
                      | some st2 =>
                        { result := Except.ok ()
                          transitionedToMerge := true, uploadedFinal := true
                          statusAfter := some st2 }

/-! Helper lemmas. -/

theorem condUpdate_eq_some {expected tgt cur tgt' : Status}
    (h : condUpdate expected tgt cur = some tgt') : cur = expected ∧ tgt' = tgt := by
  unfold condUpdate at h
  by_cases hc : cur = expected
  · rw [if_pos hc] at h
    exact ⟨hc, (Option.some.injEq _ _ ▸ h).symm⟩
  · rw [if_neg hc] at h
    exact absurd h (Option.noConfusion)

theorem fragmentSlotsPerPage_bounds (x : Option ℚ) :
    ∃ q : ℚ, fragmentSlotsPerPage x = some q ∧ 1 ≤ q ∧ q ≤ 16 := by
  cases x with
  | none => exact ⟨1, rfl, le_refl 1, by norm_num⟩
  | some q =>
    by_cases h0 : q = 0
    · subst h0
      refine ⟨1, ?_, le_refl 1, by norm_num⟩
      simp [fragmentSlotsPerPage, numToJsVal, jsOr, jsTruthy, jsToNumber, jsMin, jsMax]
    · refine ⟨max 1 (min 16 q), ?_, le_max_left 1 _, ?_⟩
      · simp [fragmentSlotsPerPage, numToJsVal, jsOr, jsTruthy, jsToNumber, jsMin, jsMax, h0]
      · exact max_le (by norm_num) (min_le_left 16 q)

/-! Claim C1. -/

/-- Claim C1 (counterexample).  The claim says every status-changing write is
an atomic conditional update predicated on the record's expected current
status and that no operation overwrites status unconditionally.  The worker
failed handler is a counterexample: it checks READY on a previously read
snapshot and then saves FAILED unconditionally, so with snapshot
MERGE_RUNNING and the record meanwhile advanced to READY the save still
overwrites the record to FAILED. -/
theorem claim_C1_counterexample :
    failedHandlerWrite Status.MERGE_RUNNING Status.READY securityViolationMsg =
      Status.FAILED ∧ Status.READY ≠ Status.FAILED := by
  constructor
  · rfl
  · intro h
    exact Status.noConfusion h

/-- Claim C1 (amended).  The forward transitions CREATED -> BATCH_RUNNING,
fromStatus -> MERGE_RUNNING and MERGE_RUNNING -> READY are atomic conditional
updates — in particular READY is reached only through an update conditioned on
MERGE_RUNNING — but the FAILED write of the worker failed handler is a plain
save guarded only by a non-atomic earlier read: whenever the error is not the
discard sentinel and the read snapshot was not READY, it writes FAILED
regardless of the record's status at write time. -/
theorem claim_C1_amended :
    (∀ cur tgt, mergeReadyUpdate cur = some tgt →
      cur = Status.MERGE_RUNNING ∧ tgt = Status.READY) ∧
    (∀ cur tgt, batchStartUpdate cur = some tgt →
      cur = Status.CREATED ∧ tgt = Status.BATCH_RUNNING) ∧
    (∀ f cur tgt, mergeStartUpdate f cur = some tgt →
      cur = f ∧ tgt = Status.MERGE_RUNNING) ∧
    (∀ snapshot cur m, m ≠ "Invalid lifecycle transition" → snapshot ≠ Status.READY →
      failedHandlerWrite snapshot cur m = Status.FAILED) := by
  refine ⟨?_, ?_, ?_, ?_⟩
  · intro cur tgt h
    exact condUpdate_eq_some h
  · intro cur tgt h
    exact condUpdate_eq_some h
  · intro f cur tgt h
    exact condUpdate_eq_some h
  · intro snapshot cur m hm hs
    unfold failedHandlerWrite
    rw [if_neg hm, if_neg hs]

/-- Claim C1 (witness): the amended theorem applied at a concrete input. -/
theorem claim_C1_witness :
    ("boom" ≠ "Invalid lifecycle transition") ∧
      (Status.BATCH_RUNNING ≠ Status.READY) ∧
      failedHandlerWrite Status.BATCH_RUNNING Status.MERGE_RUNNING "boom" = Status.FAILED :=
  ⟨by decide, by decide,
    claim_C1_amended.2.2.2 Status.BATCH_RUNNING Status.MERGE_RUNNING "boom"
      (by decide) (by decide)⟩

/-! Claim C5. -/

/-- Claim C5.  Releasing the render lock is idempotent and total: releasing
twice for the same (documentKey, jobId) equals releasing once (so the second
invocation deletes nothing and decrements nothing), a nonnegative active
counter never goes below zero, the decrement happens only when the membership
marker exists and the counter is strictly positive, and after any release the
membership marker is gone. -/
theorem claim_C5 : ∀ (st : RedisState) (jobId : String),
    releaseRenderLock (releaseRenderLock st jobId) jobId = releaseRenderLock st jobId ∧
    (0 ≤ activeVal st → 0 ≤ activeVal (releaseRenderLock st jobId)) ∧
    (releaseRenderLock st jobId).member = false ∧
    ((st.member = false ∨ ¬ 0 < activeVal st) →
      (releaseRenderLock st jobId).active = st.active) := by
  intro st j
  rcases st with ⟨lock, active, member⟩
  cases member <;> by_cases hl : lock = some j <;>
    by_cases ha : 0 < active.getD 0 <;>
      simp [releaseRenderLock, activeVal, hl, ha] <;> omega

/-- Claim C5 (witness): the theorem applied at a concrete store state. -/
theorem claim_C5_witness :
    releaseRenderLock (releaseRenderLock ⟨some "job1", some 2, true⟩ "job1") "job1" =
        releaseRenderLock ⟨some "job1", some 2, true⟩ "job1" ∧
      0 ≤ activeVal (releaseRenderLock ⟨some "job1", some 2, true⟩ "job1") :=
  ⟨(claim_C5 ⟨some "job1", some 2, true⟩ "job1").1,
    (claim_C5 ⟨some "job1", some 2, true⟩ "job1").2.1 (by decide)⟩

/-! Claim C9. -/

/-- Claim C9 (counterexample).  The claim says a missing or non-numeric
repeatPerPage defaults to 4.  A non-numeric string is truthy, so `\x7cI\x7c 4`
keeps it, `Number` turns it into NaN, the page-level clamp propagates NaN, and
drawSourceFragment's `repeatPerPage \x7c\x7c 1` then collapses it to a single
slot: the layout gets 1 repeat, not 4. -/
theorem claim_C9_counterexample :
    slotsPerPageOfLayout (JsVal.str "abc") = some 1 ∧
      slotsPerPageOfLayout (JsVal.str "abc") ≠ some 4 := by
  constructor
  · decide
  · decide

/-- Claim C9 (amended).  The slots-per-page value reaching the placement loops
always lies in [1, 16] and so does the mm-mode loop count; a missing
repeatPerPage defaults to 4, and so does 0 (it is falsy); a nonzero numeric
value below 1 is raised to 1 and a value above 16 is reduced to 16; a
non-numeric (NaN-producing, truthy) string collapses to 1 slot rather than
defaulting to 4. -/
theorem claim_C9_amended :
    (∀ v : JsVal, ∃ q : ℚ, slotsPerPageOfLayout v = some q ∧ 1 ≤ q ∧ q ≤ 16 ∧
      1 ≤ mmLoopCount q ∧ mmLoopCount q ≤ 16) ∧
    slotsPerPageOfLayout JsVal.undef = some 4 ∧
    slotsPerPageOfLayout (JsVal.num 0) = some 4 ∧
    (∀ q : ℚ, q ≠ 0 → q < 1 → slotsPerPageOfLayout (JsVal.num q) = some 1) ∧
    (∀ q : ℚ, 16 < q → slotsPerPageOfLayout (JsVal.num q) = some 16) ∧
    (∀ q : ℚ, 1 ≤ q → q ≤ 16 → slotsPerPageOfLayout (JsVal.num q) = some q) ∧
    (∀ s : String, s ≠ "" → jsStrToNumber s = none →
      slotsPerPageOfLayout (JsVal.str s) = some 1) := by
  refine ⟨?_, by decide, by decide, ?_, ?_, ?_, ?_⟩
  · intro v
    obtain ⟨q, hq, h1, h16⟩ := fragmentSlotsPerPage_bounds (pageRepeatPerPage v)
    refine ⟨q, hq, h1, h16, ?_, ?_⟩
    · have hcq : (1 : ℚ) ≤ (Int.ceil q : ℚ) := le_trans h1 (Int.le_ceil q)
      have hz : (1 : ℤ) ≤ Int.ceil q := by exact_mod_cast hcq
      unfold mmLoopCount
      omega
    · have hz : Int.ceil q ≤ 16 := Int.ceil_le.mpr (by exact_mod_cast h16)
      unfold mmLoopCount
      omega
  · intro q hq0 hq1
    have hmin : min (16 : ℚ) q = q := min_eq_right (by linarith)
    have hmax : max (1 : ℚ) q = 1 := max_eq_left (by linarith)
    simp [slotsPerPageOfLayout, pageRepeatPerPage, fragmentSlotsPerPage, numToJsVal,
      jsOr, jsTruthy, jsToNumber, jsMin, jsMax, hq0, hmin, hmax]
  · intro q hq
    have hq0 : q ≠ 0 := by linarith
    have hmin : min (16 : ℚ) q = 16 := min_eq_left (by linarith)
    simp [slotsPerPageOfLayout, pageRepeatPerPage, fragmentSlotsPerPage, numToJsVal,
      jsOr, jsTruthy, jsToNumber, jsMin, jsMax, hq0, hmin]
  · intro q h1 h16
    have hq0 : q ≠ 0 := by linarith
    have hmin : min (16 : ℚ) q = q := min_eq_right h16
    have hmax : max (1 : ℚ) q = q := max_eq_right h1
    simp [slotsPerPageOfLayout, pageRepeatPerPage, fragmentSlotsPerPage, numToJsVal,
      jsOr, jsTruthy, jsToNumber, jsMin, jsMax, hq0, hmin, hmax]
  · intro s hs hnan
    simp [slotsPerPageOfLayout, pageRepeatPerPage, fragmentSlotsPerPage, numToJsVal,
      jsOr, jsTruthy, jsToNumber, jsMin, jsMax, hs, hnan]

/-- Claim C9 (witness): the amended theorem applied at a concrete value. -/
theorem claim_C9_witness :
    ((20 : ℚ) ≠ 0 ∧ (16 : ℚ) < 20) ∧
      slotsPerPageOfLayout (JsVal.num 20) = some 16 :=
  ⟨⟨by norm_num, by norm_num⟩, claim_C9_amended.2.2.2.2.1 20 (by norm_num)⟩

/-! Claim C3. -/

/-- Claim C3.  In exact-unit (mm) layout mode, whenever
`startY + (slotsPerPage - 1) * (objectHeight + gap) + objectHeight` exceeds
the page height in mm (A4_HEIGHT converted to mm), drawSourceFragment throws
`Objects do not fit on page` before drawing anything: the result is that
error, never a placement list. -/
theorem claim_C3 : ∀ (crop : MmCrop) (n : ℕ),
    (∀ x, crop.xMm = some x → 0 ≤ x) →
    (∀ y, crop.yMm = some y → 0 ≤ y) →
    (∀ g, crop.cutMarginMm = some g → 0 ≤ g) →
    A4_HEIGHT_MM <
      crop.yMm.getD 0 + ((n : ℚ) - 1) * (crop.heightMm + crop.cutMarginMm.getD 0) +
        crop.heightMm →
    drawSourceFragmentMm crop n = Except.error "Objects do not fit on page" ∧
      ∀ l, drawSourceFragmentMm crop n ≠ Except.ok l := by
  intro crop n hx hy hg hfit
  have hxn : mmFieldNeg crop.xMm = false := by
    unfold mmFieldNeg
    cases hcx : crop.xMm with
    | none => rfl
    | some x => simpa using not_lt.mpr (hx x hcx)
  have hyn : mmFieldNeg crop.yMm = false := by
    unfold mmFieldNeg
    cases hcy : crop.yMm with
    | none => rfl
    | some y => simpa using not_lt.mpr (hy y hcy)
  have hgn : mmFieldNeg crop.cutMarginMm = false := by
    unfold mmFieldNeg
    cases hcg : crop.cutMarginMm with
    | none => rfl
    | some g => simpa using not_lt.mpr (hg g hcg)
  have hres : drawSourceFragmentMm crop n = Except.error "Objects do not fit on page" := by
    unfold drawSourceFragmentMm
    rw [if_neg (by simp [hxn]), if_neg (by simp [hyn]), if_neg (by simp [hgn]),
      if_pos hfit]
  refine ⟨hres, ?_⟩
  intro l hl
  rw [hres] at hl
  exact Except.noConfusion hl

/-! Claim C10. -/

/-- Claim C10.  buildSlotLayoutPlan is total and, for any slotsPerPage at
least 1 and any requested slot spacing, returns exactly slotsPerPage slots of
equal strictly positive height lying inside the usable printable area; when
the requested gaps would consume the whole usable height the gap is silently
dropped and the slot height becomes usableHeight / slotsPerPage.  SAFE_MARGIN
comes from the missing constants module and is assumed to leave a positive
usable area. -/
theorem claim_C10 : ∀ (sm : ℚ) (n : ℕ) (g : Option ℚ),
    1 ≤ n → 0 ≤ sm → 2 * sm < A4_HEIGHT_PT →
    (buildSlotLayoutPlan sm n g).length = n ∧
    (∀ s ∈ buildSlotLayoutPlan sm n g, s.height = slotHeightOf sm n g) ∧
    0 < slotHeightOf sm n g ∧
    (∀ s ∈ buildSlotLayoutPlan sm n g, sm ≤ s.y ∧ s.y + s.height ≤ A4_HEIGHT_PT - sm) ∧
    (usableHeight sm - gapOf g * ((n : ℚ) - 1) ≤ 0 →
      slotHeightOf sm n g = usableHeight sm / n) := by
  intro sm n g hn hsm hlt
  have hmax : max 1 n = n := by omega
  have hnq : (0 : ℚ) < (n : ℚ) := by exact_mod_cast Nat.pos_of_ne_zero (by omega)
  have hnne : (n : ℚ) ≠ 0 := ne_of_gt hnq
  have hcast : ((n - 1 : ℕ) : ℚ) = (n : ℚ) - 1 := by
    rw [Nat.cast_sub hn]
    norm_num
  have husable : 0 < usableHeight sm := by
    unfold usableHeight
    linarith
  have hgap0 : 0 ≤ gapOf g := by
    unfold gapOf
    cases g with
    | none => norm_num
    | some x => exact le_max_left 0 x
  have heg0 : 0 ≤ effectiveGapOf sm n g := by
    simp only [effectiveGapOf]
    split_ifs
    · exact hgap0
    · exact le_refl 0
  have hslotpos : 0 < slotHeightOf sm n g := by
    simp only [slotHeightOf, effectiveGapOf]
    split_ifs with hcond
    · exact div_pos hcond hnq
    · have : usableHeight sm - 0 * ((n - 1 : ℕ) : ℚ) = usableHeight sm := by ring
      rw [this]
      exact div_pos husable hnq
  have hident : (n : ℚ) * slotHeightOf sm n g =
      usableHeight sm - effectiveGapOf sm n g * ((n : ℚ) - 1) := by
    unfold slotHeightOf
    rw [hcast]
    field_simp
  refine ⟨?_, ?_, hslotpos, ?_, ?_⟩
  · simp [buildSlotLayoutPlan, hmax]
  · intro s hs
    simp only [buildSlotLayoutPlan, hmax, List.mem_map, List.mem_range] at hs
    obtain ⟨i, hi, rfl⟩ := hs
    rfl
  · intro s hs
    simp only [buildSlotLayoutPlan, hmax, List.mem_map, List.mem_range] at hs
    obtain ⟨i, hi, rfl⟩ := hs
    constructor
    · have h0 : 0 ≤ (i : ℚ) * (slotHeightOf sm n g + effectiveGapOf sm n g) :=
        mul_nonneg (by positivity) (by linarith)
      simp only []
      linarith
    · have hile : (i : ℚ) ≤ (n : ℚ) - 1 := by
        have hin : (i : ℚ) + 1 ≤ (n : ℚ) := by exact_mod_cast hi
        linarith
      have hmono : (i : ℚ) * (slotHeightOf sm n g + effectiveGapOf sm n g) ≤
          ((n : ℚ) - 1) * (slotHeightOf sm n g + effectiveGapOf sm n g) :=
        mul_le_mul_of_nonneg_right hile (by linarith)
      have hsum : ((n : ℚ) - 1) * (slotHeightOf sm n g + effectiveGapOf sm n g) +
          slotHeightOf sm n g = usableHeight sm := by
        linear_combination hident
      have hus : usableHeight sm = A4_HEIGHT_PT - 2 * sm := rfl
      simp only []
      linarith
  · intro hcond
    unfold slotHeightOf effectiveGapOf
    rw [hcast, if_neg (not_lt.mpr hcond)]
    rw [show usableHeight sm - 0 * ((n : ℚ) - 1) = usableHeight sm from by ring]

/-- Claim C10 (witness): the theorem applied at a 10 mm margin, four slots
and a 10 pt gap. -/
theorem claim_C10_witness :
    ((1 : ℕ) ≤ 4 ∧ (0 : ℚ) ≤ 2835 / 100 ∧ 2 * (2835 / 100 : ℚ) < A4_HEIGHT_PT) ∧
      (buildSlotLayoutPlan (2835 / 100) 4 (some 10)).length = 4 ∧
      0 < slotHeightOf (2835 / 100) 4 (some 10) :=
  ⟨⟨by norm_num, by norm_num, by norm_num [A4_HEIGHT_PT]⟩,
    (claim_C10 (2835 / 100) 4 (some 10) (by norm_num) (by norm_num)
      (by norm_num [A4_HEIGHT_PT])).1,
    (claim_C10 (2835 / 100) 4 (some 10) (by norm_num) (by norm_num)
      (by norm_num [A4_HEIGHT_PT])).2.2.1⟩

/-! Claim C2. -/

theorem drop_replicate_append (c : Char) (k n : ℕ) (l : List Char) :
    (List.replicate k c ++ l).drop (k + n) = l.drop n := by
  induction k with
  | zero => simp
  | succ m ih =>
    rw [List.replicate_succ, List.cons_append, Nat.succ_add, List.drop_succ_cons]
    exact ih

theorem seriesPadTruncate_eq (ds : List Char) (L : ℕ) :
    seriesPadTruncate ds L =
      (List.replicate L '0' ++ ds).drop ((List.replicate L '0' ++ ds).length - L) := by
  have hlen : (List.replicate L '0' ++ ds).length = L + ds.length := by simp
  rw [hlen]
  by_cases h : L ≤ ds.length
  · have h1 : L + ds.length - L = ds.length := by omega
    rw [h1, show ds.length = L + (ds.length - L) from by omega, drop_replicate_append]
    unfold seriesPadTruncate padStartList
    rw [if_pos h]
    by_cases h3 : L < ds.length
    · rw [if_pos h3]
    · rw [if_neg h3, show ds.length - L = 0 from by omega, List.drop_zero]
  · push_neg at h
    have h1 : L + ds.length - L = ds.length := by omega
    rw [h1]
    have hsplit : List.replicate L '0' =
        List.replicate ds.length '0' ++ List.replicate (L - ds.length) '0' := by
      rw [← List.replicate_add]
      congr 1
      omega
    have hdrop := drop_replicate_append '0' ds.length 0 (List.replicate (L - ds.length) '0' ++ ds)
    rw [Nat.add_zero, List.drop_zero] at hdrop
    rw [hsplit, List.append_assoc, hdrop]
    unfold seriesPadTruncate padStartList
    rw [if_neg (by omega : ¬ L ≤ ds.length)]
    have hplen : ¬ L < (List.replicate (L - ds.length) '0' ++ ds).length := by
      simp only [List.length_append, List.length_replicate]
      omega
    rw [if_neg hplen]

/-- Claim C2 (counterexample).  The claim's worked example says slot 2 of
page 1 of a 4-per-page layout with start=100, step=1, padLength=5,
prefix="A-" prints "A-00105"; the code (and the claim's own formula
start + (p*slotsPerPage + i)*step = 100 + 6) gives "A-00106". -/
theorem claim_C2_counterexample :
    seriesValue 100 1 5 "A-" 1 2 4 = "A-00106" ∧
      seriesValue 100 1 5 "A-" 1 2 4 ≠ "A-00105" := by
  exact ⟨by decide, by decide⟩

/-- Claim C2 (amended).  The printed series value is the literal prefix
followed by the decimal digits of start + (p*slotsPerPage + i)*step,
left-padded with zeros to padLength when padLength > 0 and truncated to the
last padLength characters when the padded digits exceed padLength; the worked
example gives "A-00100" at page 0 slot 0, and at page 1 of a 4-per-page
layout "A-00105" appears at slot 1 and slot 2 prints "A-00106". -/
theorem claim_C2_amended : ∀ (start step : ℤ) (L : ℕ) (pfx : String) (p i spp : ℕ),
    seriesValue start step L pfx p i spp = seriesValueSpec start step L pfx p i spp ∧
    seriesValue 100 1 5 "A-" 0 0 4 = "A-00100" ∧
    seriesValue 100 1 5 "A-" 1 1 4 = "A-00105" ∧
    seriesValue 100 1 5 "A-" 1 2 4 = "A-00106" := by
  intro start step L pfx p i spp
  refine ⟨?_, by decide, by decide, by decide⟩
  unfold seriesValue seriesValueSpec
  by_cases hL : 0 < L
  · rw [if_pos hL, if_pos hL, seriesPadTruncate_eq]
  · rw [if_neg hL, if_neg hL]

/-! JSON escaping injectivity, for the HMAC claims. -/

theorem jsonEscapeChar_ne_nil (c : Char) : jsonEscapeChar c ≠ [] := by
  unfold jsonEscapeChar
  split_ifs <;> simp

theorem jsonEscapeChar_head_ne_quote (c : Char) :
    ∀ hd tl, jsonEscapeChar c = hd :: tl → hd ≠ '"' := by
  unfold jsonEscapeChar
  split_ifs with h1 h2 h3 h4 h5 h6 h7 h8 <;> intro hd tl he <;>
    first
    | (injection he with he1 he2; rw [← he1]; decide)
    | (injection he with he1 he2; rw [← he1]; exact h1)

theorem hexVal_hexDigitChar : ∀ n : ℕ, n < 16 → hexVal (hexDigitChar n) = n := by
  decide

theorem jsonUnescape1_escape (c : Char) (r : List Char) :
    jsonUnescape1 (jsonEscapeChar c ++ r) = some (c, r) := by
  unfold jsonEscapeChar
  split_ifs with h1 h2 h3 h4 h5 h6 h7 h8
  · rw [h1]; rfl
  · rw [h2]; rfl
  · rw [h4]; rfl
  · rw [h5]; rfl
  · rw [h6]; rfl
  · rw [h7]; rfl
  · rw [h8]; rfl
  · have hlt : c.toNat < 32 := h3
    have e1 : hexVal (hexDigitChar (c.toNat / 16)) = c.toNat / 16 :=
      hexVal_hexDigitChar _ (by omega)
    have e2 : hexVal (hexDigitChar (c.toNat % 16)) = c.toNat % 16 :=
      hexVal_hexDigitChar _ (Nat.mod_lt _ (by norm_num))
    have hstep :
        jsonUnescape1 ('\\' :: 'u' :: '0' :: '0' ::
            hexDigitChar (c.toNat / 16) :: hexDigitChar (c.toNat % 16) :: r) =
          some (Char.ofNat (16 * hexVal (hexDigitChar (c.toNat / 16)) +
            hexVal (hexDigitChar (c.toNat % 16))), r) := rfl
    rw [List.cons_append, List.cons_append, List.cons_append, List.cons_append,
      List.cons_append, List.cons_append, List.nil_append] at *
    rw [hstep, e1, e2, Nat.div_add_mod, Char.ofNat_toNat]
  · rw [List.cons_append, List.nil_append]
    simp only [jsonUnescape1]
    rw [if_neg h2]

theorem jsonEscapeChar_append_inj {c d : Char} {x y : List Char}
    (h : jsonEscapeChar c ++ x = jsonEscapeChar d ++ y) : c = d ∧ x = y := by
  have h2 := congrArg jsonUnescape1 h
  rw [jsonUnescape1_escape, jsonUnescape1_escape] at h2
  simpa using h2

theorem jsonEscapeList_quote_inj : ∀ (a b r r' : List Char),
    jsonEscapeList a ++ '"' :: r = jsonEscapeList b ++ '"' :: r' → a = b ∧ r = r' := by
  intro a
  induction a with
  | nil =>
    intro b r r' h
    cases b with
    | nil => simpa [jsonEscapeList] using h
    | cons d bs =>
      exfalso
      simp only [jsonEscapeList, List.flatMap_cons, List.flatMap_nil, List.nil_append,
        List.append_assoc] at h
      obtain ⟨hd, tl, he⟩ := List.exists_cons_of_ne_nil (jsonEscapeChar_ne_nil d)
      rw [he, List.cons_append] at h
      injection h with hh _
      exact jsonEscapeChar_head_ne_quote d hd tl he hh.symm
  | cons c as ih =>
    intro b r r' h
    cases b with
    | nil =>
      exfalso
      simp only [jsonEscapeList, List.flatMap_cons, List.flatMap_nil, List.nil_append,
        List.append_assoc] at h
      obtain ⟨hd, tl, he⟩ := List.exists_cons_of_ne_nil (jsonEscapeChar_ne_nil c)
      rw [he, List.cons_append] at h
      injection h with hh _
      exact jsonEscapeChar_head_ne_quote c hd tl he hh
    | cons d bs =>
      simp only [jsonEscapeList, List.flatMap_cons, List.append_assoc] at h ih ⊢
      obtain ⟨hcd, hrest⟩ := jsonEscapeChar_append_inj h
      obtain ⟨has, hr⟩ := ih bs r r' hrest
      exact ⟨by rw [hcd, has], hr⟩

theorem string_data_inj {s t : String} (h : s.data = t.data) : s = t := by
  cases s
  cases t
  exact congrArg String.mk h

theorem stableChars_fields {p p' : SignInput} (h : stableChars p = stableChars p') :
    p.createdAt = p'.createdAt ∧ p.jobId = p'.jobId ∧ p.outputKey = p'.outputKey := by
  unfold stableChars at h
  have h1 := List.append_cancel_left h
  obtain ⟨hca, hX⟩ := jsonEscapeList_quote_inj _ _ _ _ h1
  have h2 := List.append_cancel_left hX
  obtain ⟨hji, hY⟩ := jsonEscapeList_quote_inj _ _ _ _ h2
  have h3 := List.append_cancel_left hY
  obtain ⟨hok, _⟩ := jsonEscapeList_quote_inj _ _ _ _ h3
  exact ⟨string_data_inj hca, string_data_inj hji, string_data_inj hok⟩

theorem stableStringifyPayload_inj {p p' : SignInput}
    (h : stableStringifyPayload p = stableStringifyPayload p') :
    p.createdAt = p'.createdAt ∧ p.jobId = p'.jobId ∧ p.outputKey = p'.outputKey := by
  unfold stableStringifyPayload at h
  have hdata := congrArg String.data h
  simp only [] at hdata
  exact stableChars_fields hdata

theorem verify_some_of_sign_ok {env : HmacEnv} {p : SignInput} {e a : String}
    (he : e ≠ "") (hsig : signJobPayload env p = Except.ok a) :
    verifyJobPayload env p (some e) =
      if utf8Len a ≠ utf8Len e then Except.ok false else Except.ok (decide (a = e)) := by
  simp only [verifyJobPayload]
  rw [if_neg he, hsig]

/-! Claim C4. -/

/-- Claim C4.  For every payload free of the forbidden mutable fields,
verifying its own fresh signature succeeds; and, with the HMAC digest
idealized as an injective function (collision resistance of HMAC-SHA256) and
its output nonempty as a hex digest always is, verifying a payload that
differs from the signed one in any of its fields against the original
signature fails. -/
theorem claim_C4 : ∀ (env : HmacEnv) (p p' : SignInput) (s : String),
    wellFormedPayload p → wellFormedPayload p' →
    env.secretConfigured = true →
    signJobPayload env p = Except.ok s → s ≠ "" →
    verifyJobPayload env p (some s) = Except.ok true ∧
    (Function.Injective env.digest →
      (p'.jobId ≠ p.jobId ∨ p'.outputKey ≠ p.outputKey ∨ p'.createdAt ≠ p.createdAt) →
      verifyJobPayload env p' (some s) = Except.ok false) := by
  intro env p p' s hwf hwf' hsec hsig hs
  obtain ⟨hp1, hp2, hp3⟩ := hwf
  obtain ⟨hq1, hq2, hq3⟩ := hwf'
  have hsig' : signJobPayload env p = Except.ok (env.digest (stableStringifyPayload p)) := by
    unfold signJobPayload
    rw [hp1, hp2, hp3, hsec]
    rfl
  have hsval : s = env.digest (stableStringifyPayload p) := by
    rw [hsig'] at hsig
    exact (Except.ok.injEq _ _ ▸ hsig).symm
  constructor
  · rw [verify_some_of_sign_ok hs hsig', ← hsval]
    simp
  · intro hinj hdiff
    have hsig2 : signJobPayload env p' = Except.ok (env.digest (stableStringifyPayload p')) := by
      unfold signJobPayload
      rw [hq1, hq2, hq3, hsec]
      rfl
    have hne : env.digest (stableStringifyPayload p') ≠ s := by
      rw [hsval]
      intro hcontra
      have hstr := hinj hcontra
      obtain ⟨hca, hji, hok⟩ := stableStringifyPayload_inj hstr
      rcases hdiff with hd | hd | hd
      · exact hd hji
      · exact hd hok
      · exact hd hca
    rw [verify_some_of_sign_ok hs hsig2]
    by_cases hlen : utf8Len (env.digest (stableStringifyPayload p')) = utf8Len s
    · rw [if_neg (by simpa using hlen)]
      simp [hne]
    · rw [if_pos (by simpa using hlen)]

/-- Claim C4 (witness): the theorem applied to concrete payloads with the
identity function as digest (which is injective). -/
theorem claim_C4_witness :
    wellFormedPayload ⟨"j1", "k1", "t1", false, false, false⟩ ∧
      wellFormedPayload ⟨"j2", "k1", "t1", false, false, false⟩ ∧
      verifyJobPayload ⟨true, fun s => s⟩ ⟨"j1", "k1", "t1", false, false, false⟩
        (some (stableStringifyPayload ⟨"j1", "k1", "t1", false, false, false⟩)) =
        Except.ok true ∧
      verifyJobPayload ⟨true, fun s => s⟩ ⟨"j2", "k1", "t1", false, false, false⟩
        (some (stableStringifyPayload ⟨"j1", "k1", "t1", false, false, false⟩)) =
        Except.ok false :=
  ⟨by decide, by decide,
    (claim_C4 ⟨true, fun s => s⟩ ⟨"j1", "k1", "t1", false, false, false⟩
      ⟨"j2", "k1", "t1", false, false, false⟩
      (stableStringifyPayload ⟨"j1", "k1", "t1", false, false, false⟩)
      (by decide) (by decide) rfl rfl (by decide)).1,
    (claim_C4 ⟨true, fun s => s⟩ ⟨"j1", "k1", "t1", false, false, false⟩
      ⟨"j2", "k1", "t1", false, false, false⟩
      (stableStringifyPayload ⟨"j1", "k1", "t1", false, false, false⟩)
      (by decide) (by decide) rfl rfl (by decide)).2
      (fun _ _ hab => hab) (Or.inl (by decide))⟩

/-! Claim C8. -/

/-- Claim C8 (counterexample).  The claim says verifyJobPayload never throws
for every payload; but verification recomputes the signature with
signJobPayload, which throws on a payload carrying a forbidden mutable field
(here, a truthy `pages`), so verify propagates that exception whenever the
stored signature is a nonempty string. -/
theorem claim_C8_counterexample :
    verifyJobPayload ⟨true, fun s => s⟩ ⟨"j", "k", "t", true, false, false⟩ (some "x") =
      Except.error "HMAC payload must be immutable only" := rfl

/-- Claim C8 (amended).  For payloads free of the forbidden mutable fields
(and a configured secret), verifyJobPayload never throws: it returns a
boolean, returns false for a missing signature, and returns false for every
candidate signature different from the recomputed digest — including a
signature of different length; for payloads violating signJobPayload's
preconditions, verification propagates the signing error instead. -/
theorem claim_C8_amended : ∀ (env : HmacEnv) (p : SignInput) (sig : Option String),
    wellFormedPayload p → env.secretConfigured = true →
    (∃ b : Bool, verifyJobPayload env p sig = Except.ok b) ∧
    (sig = none → verifyJobPayload env p sig = Except.ok false) ∧
    (∀ e, sig = some e → e ≠ env.digest (stableStringifyPayload p) →
      verifyJobPayload env p sig = Except.ok false) := by
  intro env p sig hwf hsec
  obtain ⟨hp1, hp2, hp3⟩ := hwf
  have hsig' : signJobPayload env p = Except.ok (env.digest (stableStringifyPayload p)) := by
    unfold signJobPayload
    rw [hp1, hp2, hp3, hsec]
    rfl
  refine ⟨?_, ?_, ?_⟩
  · cases sig with
    | none => exact ⟨false, rfl⟩
    | some e =>
      by_cases he : e = ""
      · refine ⟨false, ?_⟩
        simp only [verifyJobPayload]
        rw [if_pos he]
      · rw [verify_some_of_sign_ok he hsig']
        by_cases hlen : utf8Len (env.digest (stableStringifyPayload p)) = utf8Len e
        · rw [if_neg (by simpa using hlen)]
          exact ⟨_, rfl⟩
        · rw [if_pos (by simpa using hlen)]
          exact ⟨false, rfl⟩
  · intro hnone
    rw [hnone]
    rfl
  · intro e hse hne
    rw [hse]
    by_cases he : e = ""
    · simp only [verifyJobPayload]
      rw [if_pos he]
    · rw [verify_some_of_sign_ok he hsig']
      by_cases hlen : utf8Len (env.digest (stableStringifyPayload p)) = utf8Len e
      · rw [if_neg (by simpa using hlen)]
        simp only [Except.ok.injEq, decide_eq_false_iff_not]
        intro hcontra
        exact hne hcontra.symm
      · rw [if_pos (by simpa using hlen)]

/-- Claim C8 (witness): the amended theorem applied to a concrete payload and
a mismatching signature. -/
theorem claim_C8_witness :
    wellFormedPayload ⟨"j", "k", "t", false, false, false⟩ ∧
      verifyJobPayload ⟨true, fun s => s⟩ ⟨"j", "k", "t", false, false, false⟩
        (some "deadbeef") = Except.ok false :=
  ⟨by decide,
    (claim_C8_amended ⟨true, fun s => s⟩ ⟨"j", "k", "t", false, false, false⟩
      (some "deadbeef") (by decide) rfl).2.2 "deadbeef" rfl (by decide)⟩

/-! Claim C6. -/

/-- Claim C6.  When the merge stage's rendered artifact does not start with
the `%PDF-` signature, processMerge throws the security-violation error
before uploading anything, mapErrorCode classifies that message as
INVALID_OUTPUT, the job is left in MERGE_RUNNING (never READY by this run),
and the worker failed handler then drives it to FAILED, which is not
READY. -/
theorem claim_C6 : ∀ (env : HmacEnv) (rootId : String) (jd : MergeJobDoc)
    (bytes : List (Fin 256)) (storedHmac : String) (payload : SignInput),
    (jd.status = Status.BATCH_RUNNING ∨ jd.status = Status.CREATED) →
    jd.payloadHmac = some storedHmac → storedHmac ≠ "" →
    getStableHmacPayloadModel jd = Except.ok payload →
    rootId = payload.jobId →
    verifyJobPayload env payload (some storedHmac) = Except.ok true →
    isPdfHeader bytes = false →
    (processMergeModel env (some rootId) (some jd) bytes).result =
        Except.error securityViolationMsg ∧
      (processMergeModel env (some rootId) (some jd) bytes).uploadedFinal = false ∧
      (processMergeModel env (some rootId) (some jd) bytes).statusAfter =
        some Status.MERGE_RUNNING ∧
      (processMergeModel env (some rootId) (some jd) bytes).statusAfter ≠
        some Status.READY ∧
      mapErrorCode securityViolationMsg "UNKNOWN" = "INVALID_OUTPUT" ∧
      failedHandlerWrite Status.MERGE_RUNNING Status.MERGE_RUNNING securityViolationMsg =
        Status.FAILED ∧
      Status.FAILED ≠ Status.READY := by
  intro env rootId jd bytes storedHmac payload hstat hph hph0 hpay hroot hver hgate
  have hkey : processMergeModel env (some rootId) (some jd) bytes =
      { result := Except.error securityViolationMsg
        transitionedToMerge := true
        uploadedFinal := false
        statusAfter := some Status.MERGE_RUNNING } := by
    rcases hstat with hs | hs <;>
      simp [processMergeModel, hs, hph, hph0, hpay, hroot, hver, hgate,
        mergeStartUpdate, condUpdate]
  rw [hkey]
  refine ⟨rfl, rfl, rfl, by decide, by decide, by decide, by decide⟩

/-- Claim C6 (witness): the theorem applied at a concrete job whose rendered
bytes do not start with the PDF signature. -/
theorem claim_C6_witness :
    verifyJobPayload ⟨true, fun s => s⟩ ⟨"j1", "k1", "t1", false, false, false⟩
        (some (stableStringifyPayload ⟨"j1", "k1", "t1", false, false, false⟩)) =
        Except.ok true ∧
      isPdfHeader [1, 2, 3] = false ∧
      (processMergeModel ⟨true, fun s => s⟩ (some "j1")
          (some ⟨"j1", Status.BATCH_RUNNING,
            some (stableStringifyPayload ⟨"j1", "k1", "t1", false, false, false⟩),
            some "k1", some "t1"⟩) [1, 2, 3]).result =
        Except.error securityViolationMsg :=
  ⟨rfl, by decide,
    (claim_C6 ⟨true, fun s => s⟩ "j1"
      ⟨"j1", Status.BATCH_RUNNING,
        some (stableStringifyPayload ⟨"j1", "k1", "t1", false, false, false⟩),
        some "k1", some "t1"⟩ [1, 2, 3]
      (stableStringifyPayload ⟨"j1", "k1", "t1", false, false, false⟩)
      ⟨"j1", "k1", "t1", false, false, false⟩
      (Or.inl rfl) rfl (by decide) rfl rfl rfl (by decide)).1⟩

/-! Claim C7. -/

/-- Claim C7 (counterexample).  The claim says a merge whose root printJobId
differs from the signed payload's jobId is classified as an
HMAC_FAILED-class error.  The thrown message is
`Root printJobId mismatch: ...`, which matches none of mapErrorCode's
patterns (in particular not /hmac/i), so the recorded code is the UNKNOWN
fallback, not HMAC_FAILED. -/
theorem claim_C7_counterexample :
    (processMergeModel ⟨true, fun s => s⟩ (some "b2")
        (some ⟨"a1", Status.CREATED, some "x", some "k", some "t"⟩) []).result =
      Except.error (rootMismatchMsg "b2" "a1") ∧
    mapErrorCode (rootMismatchMsg "b2" "a1") "UNKNOWN" = "UNKNOWN" ∧
    "UNKNOWN" ≠ "HMAC_FAILED" := by
  refine ⟨rfl, by decide, by decide⟩

/-- Claim C7 (amended).  A merge whose root printJobId differs from the
signed payload's jobId fails closed before the MERGE_RUNNING transition and
before any upload, leaving the job status untouched; the recorded failure
code is whatever mapErrorCode assigns the mismatch message — the UNKNOWN
fallback for ordinary ids — not an HMAC_FAILED-class code. -/
theorem claim_C7_amended : ∀ (env : HmacEnv) (rootId : String) (jd : MergeJobDoc)
    (bytes : List (Fin 256)) (storedHmac : String) (payload : SignInput),
    (jd.status = Status.BATCH_RUNNING ∨ jd.status = Status.CREATED) →
    jd.payloadHmac = some storedHmac → storedHmac ≠ "" →
    getStableHmacPayloadModel jd = Except.ok payload →
    rootId ≠ payload.jobId →
    (processMergeModel env (some rootId) (some jd) bytes).result =
        Except.error (rootMismatchMsg rootId payload.jobId) ∧
      (processMergeModel env (some rootId) (some jd) bytes).transitionedToMerge = false ∧
      (processMergeModel env (some rootId) (some jd) bytes).uploadedFinal = false ∧
      (processMergeModel env (some rootId) (some jd) bytes).statusAfter = some jd.status := by
  intro env rootId jd bytes storedHmac payload hstat hph hph0 hpay hroot
  have hkey : processMergeModel env (some rootId) (some jd) bytes =
      { result := Except.error (rootMismatchMsg rootId payload.jobId)
        transitionedToMerge := false
        uploadedFinal := false
        statusAfter := some jd.status } := by
    rcases hstat with hs | hs <;>
      simp [processMergeModel, hs, hph, hph0, hpay, hroot]
  rw [hkey]
  exact ⟨rfl, rfl, rfl, rfl⟩

/-- Claim C7 (witness): the amended theorem applied at a concrete mismatching
merge item. -/
theorem claim_C7_witness :
    ("root9" ≠ "jobA") ∧
      (processMergeModel ⟨true, fun s => s⟩ (some "root9")
          (some ⟨"jobA", Status.BATCH_RUNNING, some "h", some "k", some "t"⟩) []).result =
        Except.error (rootMismatchMsg "root9" "jobA") :=
  ⟨by decide,
    (claim_C7_amended ⟨true, fun s => s⟩ "root9"
      ⟨"jobA", Status.BATCH_RUNNING, some "h", some "k", some "t"⟩ [] "h"
      ⟨"jobA", "k", "t", false, false, false⟩
      (Or.inl rfl) rfl (by decide) rfl (by decide)).1⟩

/-- Claim C3 (witness): the theorem applied at a concrete overflowing
configuration (three 100 mm objects with 10 mm gaps starting at 50 mm). -/
theorem claim_C3_witness :
    (A4_HEIGHT_MM <
        (Option.some (50 : ℚ)).getD 0 + ((3 : ℕ) - 1 : ℚ) * ((100 : ℚ) + (Option.some (10 : ℚ)).getD 0) + 100) ∧
      drawSourceFragmentMm ⟨100, 100, some 0, some 50, some 10⟩ 3 =
        Except.error "Objects do not fit on page" :=
  ⟨by norm_num [A4_HEIGHT_MM, A4_HEIGHT_PT],
    (claim_C3 ⟨100, 100, some 0, some 50, some 10⟩ 3
      (by intro x hx; cases hx; norm_num)
      (by intro y hy; cases hy; norm_num)
      (by intro g hg; cases hg; norm_num)
      (by norm_num [A4_HEIGHT_MM, A4_HEIGHT_PT])).1⟩

end SecurePdf
